/-
Verification of the htcluster job-description compiler against its
natural-language specification.

The Lean definitions below are a shallow embedding of the Python sources:
  * src/htcluster/validators.py            (JobParams and its validators)
  * src/htcluster/validators_3_9_compat.py (JobSettings / JobArgs / RunnerPayload)
  * src/htcluster/job_submit/__main__.py   (implicit outputs, runner payload)
  * src/htcluster/job_submit/yaml.py       (generator tags: range, glob sorting)
  * src/job_exec/server.py                 (submission descriptor compiler)
  * src/htcluster/job_exec/__main__.py     (current-revision descriptor compiler)
  * src/htcluster/job_exec/client.py       (wire encoding)

Python `Path` values are modelled as strings; machine integers do not occur
(Python integers are unbounded, modelled as `Int`/`Nat`); fallible Python code
(raise / assert) is modelled with `Except`.
-/
import Mathlib

/-- JSON values, used to model the arbitrary YAML/JSON parameter values the
pipeline carries (`ParamType` in validators.py) and the JSON wire documents
produced by `model_dump_json`.  Numbers are modelled as rationals. -/
inductive Json where
  | null : Json
  | bool (b : Bool) : Json
  | num (q : ℚ) : Json
  | str (s : String) : Json
  | arr (elems : List Json) : Json
  | obj (fields : List (String × Json)) : Json
deriving Repr

/-- `Path.name` in Python: the final path component (text after the last
slash). -/
def pathName (s : String) : String :=
  ⟨(s.toList.reverse.takeWhile (fun c => c ≠ '/')).reverse⟩

/-- `Path.__truediv__`: joining a path with a segment.  An absolute right-hand
side replaces the left-hand side, as in pathlib. -/
def joinPath (a b : String) : String :=
  if b.startsWith "/" then b
  else if a = "" then b
  else a ++ "/" ++ b

/-! ## Job parameter model (src/htcluster/validators.py) -/

/-- `ImplicitOut` marker from src/htcluster/job_submit/yaml.py: an output
suffix to be applied to each task. -/
structure ImplicitOut where
  suffix : String
deriving Repr, DecidableEq

/-- The `out_files` field of `JobParams`: either an explicit list of output
paths or the implicit-output marker (`list[Path] | ImplicitOut`). -/
inductive OutFilesVal where
  | explicitFiles (files : List String) : OutFilesVal
  | implicitOut (io : ImplicitOut) : OutFilesVal
deriving Repr

/-- Raw constructor arguments of `JobParams` before validation runs. -/
structure JobParamsIn where
  in_files : List String
  out_files : OutFilesVal
  params : Option (List (String × List Json))

/-- Validated `JobParams`: the input fields plus the derived `n_jobs`
(initialised to 0 in the Python model and only reassigned by the pairwise
axis checks). -/
structure JobParams where
  in_files : List String
  out_files : OutFilesVal
  params : Option (List (String × List Json))
  n_jobs : Nat

/-- Structured validation errors raised by `JobParams` validation.  Each
constructor records exactly the data interpolated into the corresponding
Python error message. -/
inductive VErr where
  /-- `validate_params`: "number of params must be equal for all params.
  \x7bfirst_key\x7d has \x7bfirst_len\x7d params whereas \x7bk\x7d has \x7bn_params\x7d" -/
  | paramsLenMismatch (firstKey : String) (firstLen : Nat) (k : String) (nParams : Nat) : VErr
  /-- `_assert_ins_equal_params`: reports the params count and the input count. -/
  | insParamsMismatch (nParamsLen : Nat) (nIn : Nat) : VErr
  /-- `_assert_ins_equal_outs`: reports the input count and the output count. -/
  | insOutsMismatch (nIn : Nat) (nOut : Nat) : VErr
  /-- `_assert_outs_equal_params`: reports the params count and the output count. -/
  | outsParamsMismatch (nParamsLen : Nat) (nOut : Nat) : VErr
  /-- `validate_params`: "in_files and/or params must be specified in inputs" -/
  | noInputAxes : VErr
  /-- `next(iter(self.params.keys()))` on an empty params mapping raises
  `StopIteration`. -/
  | stopIteration : VErr
deriving Repr, DecidableEq

/-- `JobParams.has_inputs`. -/
def hasInputsP (p : JobParamsIn) : Bool := p.in_files.length > 0

/-- `JobParams.has_outputs`: true only for a non-empty explicit list. -/
def hasOutputsP (p : JobParamsIn) : Bool :=
  match p.out_files with
  | .explicitFiles fs => fs.length > 0
  | .implicitOut _ => false

/-- `JobParams.has_params`: the params mapping is present (possibly empty). -/
def hasParamsP (p : JobParamsIn) : Bool := p.params.isSome

/-- The params-length loop of `validate_params`: probe the first key
(`next(iter(...))`, `StopIteration` on an empty mapping), then scan the items
in order and fail on the first key whose sequence length differs from the
first key's length.  On success, returns `_params_len`. -/
def checkParamsLens (ps : List (String × List Json)) : Except VErr Nat :=
  match ps with
  | [] => .error .stopIteration
  | (k0, v0) :: _ =>
    match ps.find? (fun kv => kv.2.length ≠ v0.length) with
    | some kv => .error (.paramsLenMismatch k0 v0.length kv.1 kv.2.length)
    | none => .ok v0.length

/-- `JobParams._assert_ins_equal_params` (returns `n_in`). -/
def assertInsEqualParams (nIn paramsLen : Nat) : Except VErr Nat :=
  if nIn ≠ paramsLen then .error (.insParamsMismatch paramsLen nIn) else .ok nIn

/-- `JobParams._assert_ins_equal_outs` (returns `n_in`). -/
def assertInsEqualOuts (nIn nOut : Nat) : Except VErr Nat :=
  if nIn ≠ nOut then .error (.insOutsMismatch nIn nOut) else .ok nIn

/-- `JobParams._assert_outs_equal_params` (returns `n_out`). -/
def assertOutsEqualParams (nOut paramsLen : Nat) : Except VErr Nat :=
  if nOut ≠ paramsLen then .error (.outsParamsMismatch paramsLen nOut) else .ok nOut

/-- Length of the explicit out-files list; the two `_assert_*` helpers are
only reached when `has_outputs` holds, i.e. on the explicit variant. -/
def outFilesLen (v : OutFilesVal) : Nat :=
  match v with
  | .explicitFiles fs => fs.length
  | .implicitOut _ => 0

/-- `JobParams.validate_params` (model validator, mode "after").  `n_jobs`
starts at its field default 0 and is reassigned by each two-axis check that
runs; checks run in source order.  Note that when fewer than two axes are
present no assignment happens and `n_jobs` remains 0. -/
def validateParams (p : JobParamsIn) : Except VErr JobParams := do
  let paramsLen ← match p.params with
    | some ps => checkParamsLens ps
    | none => pure 0
  let n0 : Nat := 0
  let n1 ← if hasInputsP p && hasParamsP p then
      assertInsEqualParams p.in_files.length paramsLen
    else pure n0
  let n2 ← if hasInputsP p && hasOutputsP p then
      assertInsEqualOuts p.in_files.length (outFilesLen p.out_files)
    else pure n1
  let n3 ← if hasParamsP p && hasOutputsP p then
      assertOutsEqualParams (outFilesLen p.out_files) paramsLen
    else pure n2
  if !hasInputsP p && !hasParamsP p then
    .error .noInputAxes
  else
    .ok { in_files := p.in_files, out_files := p.out_files,
          params := p.params, n_jobs := n3 }

/-- `JobParams.out_files_relative` (field validator).  The source checks
`isinstance(v, Path)` before asserting the name-only property, but the
validated field value is always a `list[Path]` or an `ImplicitOut`, never a
bare `Path`, so neither variant reaches the assertion and the validator
returns its argument unchanged. -/
def outFilesRelative (v : OutFilesVal) : OutFilesVal :=
  match v with
  | .explicitFiles fs => .explicitFiles fs
  | .implicitOut io => .implicitOut io

/-- Full `JobParams` construction: field validation (`out_files_relative`)
followed by model validation (`validate_params`). -/
def constructJobParams (p : JobParamsIn) : Except VErr JobParams :=
  validateParams { p with out_files := outFilesRelative p.out_files }

/-- Spec-side predicate for claim C3, written from the spec text: every named
params sequence and `in_files` all share one length. -/
def sharesOneLength (inFiles : List String) (ps : List (String × List Json)) : Prop :=
  ∀ kv ∈ ps, kv.2.length = inFiles.length

/-- Spec-side predicate for claim C4: an output name contains a directory
component (a path separator). -/
def hasDirComponent (s : String) : Bool := s.toList.contains '/'

/-- Spec-side predicate for claim C3's amendment: the output axis is
compatible with task count `n` at validation time — the implicit marker and
an explicit empty list are not length-checked, a non-empty explicit list
must have exactly `n` names. -/
def outLenCompatible (v : OutFilesVal) (n : Nat) : Prop :=
  match v with
  | .implicitOut _ => True
  | .explicitFiles fs => fs = [] ∨ fs.length = n

/-! ## Job settings and runner payload (src/htcluster/validators_3_9_compat.py) -/

/-- `JobSettings`: scheduler-facing job resources and staging flags. -/
structure JobSettings where
  name : String
  memory : String
  disk : String
  cpus : Int
  entrypoint : String
  docker_image : String
  classads : String := ""
  in_staging : Bool := false
  out_staging : Bool := false
deriving Repr, DecidableEq

/-- `JobArgs`: the per-task argument bundle (one per task index). -/
structure JobArgs where
  in_files : Option String := none
  out_files : Option String := none
  params : Option (List (String × Json)) := none
deriving Repr

/-- `RunnerPayload`: the wire unit sent from submit side to the execution
server. -/
structure RunnerPayload where
  job : JobSettings
  job_dir : String
  out_dir : String
  log_dir : String
  params : List JobArgs
  in_files : List String := []
  out_files : List String := []
  in_files_staging : List String := []
  out_files_staging : List String := []
deriving Repr

/-- `RunnerPayload.get_in_file`: pick the staging URL when input staging is
on, else the plain path (indexing faithful to the source; out-of-range is an
IndexError). -/
def RunnerPayload.getInFile (p : RunnerPayload) (idx : Nat) : Except String String :=
  if p.job.in_staging then
    match p.in_files_staging.get? idx with
    | some v => .ok v
    | none => .error "IndexError"
  else
    match p.in_files.get? idx with
    | some v => .ok v
    | none => .error "IndexError"

/-- `RunnerPayload.get_out_file`. -/
def RunnerPayload.getOutFile (p : RunnerPayload) (idx : Nat) : Except String String :=
  if p.job.out_staging then
    match p.out_files_staging.get? idx with
    | some v => .ok v
    | none => .error "IndexError"
  else
    match p.out_files.get? idx with
    | some v => .ok v
    | none => .error "IndexError"

/-- `RunnerPayload.has_inputs`: either input manifest list is non-empty. -/
def RunnerPayload.hasInputs (p : RunnerPayload) : Bool :=
  p.in_files.length > 0 || p.in_files_staging.length > 0

/-- `RunnerPayload.has_outputs`: either output manifest list is non-empty. -/
def RunnerPayload.hasOutputs (p : RunnerPayload) : Bool :=
  p.out_files.length > 0 || p.out_files_staging.length > 0

/-- `ClusterJob`: settings plus validated parameters. -/
structure ClusterJob where
  job : JobSettings
  params : JobParams

/-! ## Implicit output resolution and the runner payload
(src/htcluster/job_submit/__main__.py) -/

/-- `strip_suffixes`: `re.split(r"\.", name)[0]`, the prefix of the name
before its first dot (the whole name when it has no dot). -/
def stripSuffixes (name : String) : String :=
  ⟨name.toList.takeWhile (fun c => c ≠ '.')⟩

/-- Validity of the suffix argument of `Path.with_suffix`: it may not hold
the path separator, and it must be empty or a dot followed by at least one
character (`if suffix and not suffix.startswith(".") or suffix == "."`
raises `ValueError`). -/
def validSuffixArg (suffix : String) : Bool :=
  if suffix.toList.contains '/' then false
  else match suffix.toList with
    | [] => true
    | ['.'] => false
    | '.' :: _ => true
    | _ => false

/-- `Path.with_suffix` from pathlib, on a single-component path: an invalid
suffix argument raises `ValueError`, as does an empty name.  Otherwise the
old suffix is the part from the last dot, provided that dot is neither the
first nor the last character of the name (`0 < i < len - 1` in CPython);
otherwise nothing is stripped before appending. -/
def pyWithSuffix (name suffix : String) : Except String String :=
  if validSuffixArg suffix then
    if name = "" then .error (name ++ " has an empty name")
    else
      let cs := name.toList
      if cs.contains '.' then
        let after := (cs.reverse.takeWhile (fun c => c ≠ '.')).reverse
        let i := cs.length - after.length - 1
        if 0 < i ∧ 0 < after.length then .ok (⟨cs.take i⟩ ++ suffix)
        else .ok (name ++ suffix)
      else .ok (name ++ suffix)
  else .error ("Invalid suffix " ++ suffix)

/-- `get_implicit_out`: strip all extensions, then apply the suffix;
propagates the `ValueError` cases of `with_suffix`. -/
def getImplicitOut (path : String) (suffix : String) : Except String String :=
  pyWithSuffix (stripSuffixes path) suffix

/-- Totalisation of `get_implicit_out` for the downstream pipeline model: an
input on which `with_suffix` raises is mapped to `""` (those executions
raise, so the total model only adds coverage there). -/
def getImplicitOutTotal (path suffix : String) : String :=
  match getImplicitOut path suffix with
  | .ok s => s
  | .error _ => ""

/-- The suffix carried by an implicit-output marker; `get_implicit_out_files`
asserts the marker shape before reading it. -/
def implicitSuffix (v : OutFilesVal) : String :=
  match v with
  | .implicitOut io => io.suffix
  | .explicitFiles _ => ""

/-- `get_implicit_out_files`: one derived output name per task index
`j < n_jobs`; from the input name when inputs are present, else from the
index itself (`str(j)`).  Indexing `in_files[j]` is faithful for
`j < in_files.length`, the only executions that do not raise. -/
def getImplicitOutFiles (p : JobParams) : List String :=
  let suffix := implicitSuffix p.out_files
  (List.range p.n_jobs).map (fun j =>
    if p.in_files.length > 0 then
      getImplicitOutTotal (pathName (p.in_files.getD j "")) suffix
    else
      getImplicitOutTotal (Nat.repr j) suffix)

/-- `get_implicit_out_files`, fallibly: the same enumeration, propagating
the first `ValueError` of `with_suffix` as the loop does. -/
def getImplicitOutFilesE (p : JobParams) : Except String (List String) :=
  let suffix := implicitSuffix p.out_files
  (List.range p.n_jobs).mapM (fun j =>
    if p.in_files.length > 0 then
      getImplicitOut (pathName (p.in_files.getD j "")) suffix
    else
      getImplicitOut (Nat.repr j) suffix)

/-- `file_url`: `urlunparse(("file", "", path, "", "", ""))`; with an empty
netloc urllib only prefixes the scheme (and keeps a leading `//` intact). -/
def fileUrl (path : String) : String :=
  if path.startsWith "//" then "file:" ++ "//" ++ path else "file:" ++ path

/-- Resolution of `out_names` at the top of `get_runner_payload`: implicit
outputs are expanded, explicit outputs are taken as given. -/
def resolveOutNames (p : JobParams) : List String :=
  match p.out_files with
  | .implicitOut _ => getImplicitOutFiles p
  | .explicitFiles fs => fs

/-- `LOG_DIR` constant. -/
def LOG_DIR : String := "log"

/-- `get_runner_payload`: expand per-task `JobArgs` and route each axis to
exactly one manifest list according to its staging flag (per-element
indexing of `out_names[j]` and params columns is faithful for in-range `j`,
the only executions that do not raise). -/
def getRunnerPayload (cj : ClusterJob) (input_dir output_dir job_dir : String) :
    RunnerPayload :=
  let out_names := resolveOutNames cj.params
  let have_in_files := cj.params.in_files.length > 0
  let params : List JobArgs := (List.range cj.params.n_jobs).map (fun j =>
    { in_files := if have_in_files then some (pathName (cj.params.in_files.getD j "")) else none
      out_files := some (out_names.getD j "")
      params := cj.params.params.map (fun ps => ps.map (fun kv => (kv.1, kv.2.getD j .null))) })
  { job := cj.job
    job_dir := job_dir
    out_dir := output_dir
    log_dir := LOG_DIR
    params := params
    in_files :=
      if cj.job.in_staging then []
      else cj.params.in_files.map (fun f => joinPath input_dir (pathName f))
    out_files :=
      if cj.job.out_staging then []
      else out_names.map (fun f => joinPath output_dir (pathName f))
    in_files_staging :=
      if cj.job.in_staging then cj.params.in_files.map (fun f => fileUrl (joinPath input_dir (pathName f)))
      else []
    out_files_staging :=
      if cj.job.out_staging then out_names.map (fun f => fileUrl (joinPath output_dir (pathName f)))
      else [] }

/-! ## Submission descriptor compilation (src/job_exec/server.py and
src/htcluster/job_exec/__main__.py) -/

/-- A scheduler directive value: the Python dict holds strings and the
integer cpu request. -/
inductive SubVal where
  | s (v : String) : SubVal
  | i (v : Int) : SubVal
deriving Repr, DecidableEq

/-- Python `dict` update with a single key: replace in place when the key is
present, else append (insertion order preserved). -/
def dictInsert (d : List (String × α)) (k : String) (v : α) : List (String × α) :=
  if d.any (fun kv => kv.1 = k) then
    d.map (fun kv => if kv.1 = k then (k, v) else kv)
  else d ++ [(k, v)]

/-- Python `dict` lookup. -/
def dictGet? (d : List (String × α)) (k : String) : Option α :=
  (d.find? (fun kv => kv.1 = k)).map (fun kv => kv.2)

/-- JSON string quoting for `model_dump_json` output (quote and backslash
escapes; control-character escapes do not arise in the modelled data). -/
def jsonQuote (s : String) : String :=
  "\"" ++ ⟨s.toList.foldr (fun c acc =>
    if c = '"' ∨ c = '\\' then '\\' :: c :: acc else c :: acc) []⟩ ++ "\""

/-- JSON number rendering (exact for integers; non-integral rationals stand
in for Python floats, whose shortest-repr formatting is not modelled
bit-for-bit). -/
def renderNum (q : ℚ) : String :=
  if q.den = 1 then toString q.num else toString q

mutual
/-- Textual JSON rendering, as produced by `model_dump_json`. -/
def renderJson : Json → String
  | .null => "null"
  | .bool true => "true"
  | .bool false => "false"
  | .num q => renderNum q
  | .str s => jsonQuote s
  | .arr xs => "[" ++ renderJsonList xs ++ "]"
  | .obj fs => "\x7b" ++ renderJsonFields fs ++ "\x7d"

/-- Comma-joined rendering of array elements. -/
def renderJsonList : List Json → String
  | [] => ""
  | [x] => renderJson x
  | x :: y :: rest => renderJson x ++ "," ++ renderJsonList (y :: rest)

/-- Comma-joined rendering of object fields. -/
def renderJsonFields : List (String × Json) → String
  | [] => ""
  | [(k, v)] => jsonQuote k ++ ":" ++ renderJson v
  | (k, v) :: f :: rest => jsonQuote k ++ ":" ++ renderJson v ++ "," ++ renderJsonFields (f :: rest)
end

/-- `JobArgs.model_dump_json` document structure (fields in declaration
order; paths serialize as their string form). -/
def jsonOfJobArgs (a : JobArgs) : Json :=
  .obj [("in_files", match a.in_files with | some s => .str s | none => .null),
        ("out_files", match a.out_files with | some s => .str s | none => .null),
        ("params", match a.params with | some ps => .obj ps | none => .null)]

/-- Python `str()` of an `Optional[Path]`: `None` prints as "None". -/
def optStr (o : Option String) : String :=
  match o with
  | some s => s
  | none => "None"

/-- `BASE_SUBMISSION` from src/job_exec/server.py. -/
def BASE_SUBMISSION : List (String × SubVal) :=
  [("universe", .s "docker"),
   ("docker_pull_policy", .s "always"),
   ("output", .s "$(OutputDir)/logs/out/$(Process).log"),
   ("error", .s "$(OutputDir)/logs/err/$(Process).log"),
   ("log", .s "$(Cluster).log")]

/-- The `for j in range(len(itemdata)): itemdata[j].update({key: vals[j]})`
loops of `make_submission`: add one column to every row; indexing past the
end of `vals` is an IndexError, as in the source. -/
def addColumn (rows : List (List (String × String))) (key : String) (vals : List String) :
    Except String (List (List (String × String))) :=
  (List.range rows.length).mapM (fun j =>
    match rows.get? j, vals.get? j with
    | some r, some v => .ok (dictInsert r key v)
    | _, _ => .error "IndexError")

/-- `make_submission` from src/job_exec/server.py: base directives, a
requirements directive (`classads` is a non-None string, so it is always
set), one `job_json` row per task, and the transfer directives/row variables
gated on non-emptiness of the corresponding plain manifest list.  The output
update dict literal repeats the key `transfer_output_files` ("ON_EXIT", then
"$(job_out_file)"); the later entry wins, modelled by sequential inserts. -/
def makeSubmissionServer (payload : RunnerPayload) :
    Except String (List (String × SubVal) × List (List (String × String))) := do
  let sub := BASE_SUBMISSION
  let sub := dictInsert sub "requirements" (.s payload.job.classads)
  let sub := dictInsert sub "JobBatchName" (.s payload.job.name)
  let sub := dictInsert sub "request_memory" (.s payload.job.memory)
  let sub := dictInsert sub "request_cpus" (.i payload.job.cpus)
  let sub := dictInsert sub "request_disk" (.s payload.job.disk)
  let sub := dictInsert sub "arguments" (.s (payload.job.entrypoint ++ " \x27$(job_json)\x27"))
  let rows := payload.params.map (fun p => [("job_json", renderJson (jsonOfJobArgs p))])
  let subRows ←
    if payload.in_files.length > 0 then do
      let rows2 ← addColumn rows "in_file" payload.in_files
      pure (dictInsert sub "transfer_input_files" (.s "$(in_file)"), rows2)
    else pure (sub, rows)
  let sub := subRows.1
  let rows := subRows.2
  if payload.out_files.length > 0 then do
    let sub := dictInsert sub "should_transfer_files" (.s "YES")
    let sub := dictInsert sub "transfer_output_files" (.s "ON_EXIT")
    let sub := dictInsert sub "transfer_output_files" (.s "$(job_out_file)")
    let sub := dictInsert sub "transfer_output_remaps" (.s "$(job_out_file) = $(out_file)")
    let rows2 ← addColumn rows "job_out_file" (payload.params.map (fun p => optStr p.out_files))
    let rows3 ← addColumn rows2 "out_file" payload.out_files
    pure (sub, rows3)
  else pure (sub, rows)

/-- The field set declared by the `JobSettings` pydantic model
(src/htcluster/validators_3_9_compat.py); attribute access on an instance
resolves against exactly these names and raises `AttributeError` otherwise
(the model forbids extra fields). -/
def JobSettingsFields : List String :=
  ["name", "memory", "disk", "cpus", "entrypoint", "docker_image",
   "classads", "in_staging", "out_staging"]

/-- `make_submission` from src/htcluster/job_exec/__main__.py (the
current-revision compiler).  After building the base directive dict it reads
`payload.job.additional_args`; the attribute lookup is modelled against the
declared field set of `JobSettings`.  The remainder of the function (staging
requirement, `job_json` rows, transfer gating on the staging-aware
`has_inputs`/`has_outputs`) is embedded behind that lookup, in source
order.  `home` stands for `Path("~").expanduser()`. -/
def makeSubmissionCurrent (home : String) (payload : RunnerPayload) :
    Except String (List (String × SubVal) × List (List (String × String))) := do
  let sub : List (String × SubVal) :=
    [("universe", .s "docker"),
     ("initialdir", .s (joinPath home payload.job_dir)),
     ("JobBatchName", .s payload.job.name),
     ("docker_image", .s payload.job.docker_image),
     ("request_memory", .s payload.job.memory),
     ("request_cpus", .i payload.job.cpus),
     ("request_disk", .s payload.job.disk),
     ("arguments", .s (payload.job.entrypoint ++ " $(job_json)")),
     ("output", .s (joinPath payload.log_dir "out/$(Process).log")),
     ("error", .s (joinPath payload.log_dir "err/$(Process).log")),
     ("log", .s (joinPath payload.log_dir "cluster.log"))]
  if JobSettingsFields.contains "additional_args" then
    -- unreachable: `additional_args` is not among the declared fields, so
    -- the attribute read on the line `if payload.job.additional_args ...`
    -- raises before any of the code below runs
    let classads := payload.job.classads
    let classads :=
      if payload.job.in_staging || payload.job.out_staging then
        if classads ≠ "" then "(" ++ classads ++ ") && (Target.HasCHTCStaging == true)"
        else "(Target.HasCHTCStaging == true)"
      else classads
    let sub := if classads ≠ "" then dictInsert sub "requirements" (.s classads) else sub
    let rows := payload.params.map (fun p =>
      [("job_json", (renderJson (jsonOfJobArgs p)).replace "\"" "\\\"")])
    let subRows ←
      if payload.hasInputs then do
        let rows2 ← (List.range rows.length).mapM (fun j => do
          let v ← payload.getInFile j
          pure (dictInsert (rows.getD j []) "in_file" v))
        pure (dictInsert sub "transfer_input_files" (.s "$(in_file)"), rows2)
      else pure (sub, rows)
    let sub := subRows.1
    let rows := subRows.2
    if payload.hasOutputs then do
      let sub := dictInsert sub "should_transfer_files" (.s "YES")
      let sub := dictInsert sub "when_to_transfer_output" (.s "ON_EXIT")
      let sub := dictInsert sub "transfer_output_files" (.s "$(job_out_file)")
      let sub := dictInsert sub "transfer_output_remaps" (.s "\"$(job_out_file) = $(out_file)\"")
      let rows2 ← (List.range rows.length).mapM (fun j => do
        let v ← payload.getOutFile j
        pure (dictInsert (dictInsert (rows.getD j []) "job_out_file"
          (optStr ((payload.params.getD j {}).out_files))) "out_file" v))
      pure (sub, rows2)
    else pure (sub, rows)
  else
    .error "AttributeError: JobSettings object has no attribute additional_args"

/-! ## Generator tags (src/htcluster/job_submit/yaml.py) -/

/-- `np.arange(start, stop, step)` over exact rationals: `n` equals
`ceil((stop - start) / step)` clamped at zero, with values
`start + i * step`; a zero step raises. -/
def npArange (start stop step : ℚ) : Except String (List ℚ) :=
  if step = 0 then .error "ZeroDivisionError"
  else .ok ((List.range (Int.toNat ⌈(stop - start) / step⌉)).map
    (fun i => start + (i : ℚ) * step))

/-- `yaml_range`: 1, 2 or 3 numeric arguments mapped onto `np.arange`; any
other arity is a document error.  No integrality condition is imposed on the
step. -/
def yamlRange (ps : List ℚ) : Except String (List ℚ) :=
  match ps with
  | [stop] => npArange 0 stop 1
  | [start, stop] => npArange start stop 1
  | [start, stop, step] => npArange start stop step
  | _ => .error "!range: must specify 1, 2, or 3 params"

/-! ## The wire encoding (src/htcluster/job_exec/client.py `send` and
src/htcluster/job_exec/__main__.py `parse_message`) -/

/-- `model_dump_json` document of `JobSettings` (fields in declaration
order). -/
def jsonOfJobSettings (s : JobSettings) : Json :=
  .obj [("name", .str s.name), ("memory", .str s.memory), ("disk", .str s.disk),
        ("cpus", .num (s.cpus : ℚ)), ("entrypoint", .str s.entrypoint),
        ("docker_image", .str s.docker_image), ("classads", .str s.classads),
        ("in_staging", .bool s.in_staging), ("out_staging", .bool s.out_staging)]

/-- `model_dump_json` document of `RunnerPayload`. -/
def jsonOfRunnerPayload (p : RunnerPayload) : Json :=
  .obj [("job", jsonOfJobSettings p.job),
        ("job_dir", .str p.job_dir), ("out_dir", .str p.out_dir),
        ("log_dir", .str p.log_dir),
        ("params", .arr (p.params.map jsonOfJobArgs)),
        ("in_files", .arr (p.in_files.map .str)),
        ("out_files", .arr (p.out_files.map .str)),
        ("in_files_staging", .arr (p.in_files_staging.map .str)),
        ("out_files_staging", .arr (p.out_files_staging.map .str))]

/-- Pydantic string field validation. -/
def jStr : Json → Except String String
  | .str s => .ok s
  | _ => .error "string_type"

/-- Pydantic bool field validation. -/
def jBool : Json → Except String Bool
  | .bool b => .ok b
  | _ => .error "bool_type"

/-- Pydantic int field validation (a JSON number with no fractional part). -/
def jInt : Json → Except String Int
  | .num q => if q.den = 1 then .ok q.num else .error "int_type"
  | _ => .error "int_type"

/-- Pydantic `Optional[str]` / `Optional[Path]` field validation. -/
def jOptStr : Json → Except String (Option String)
  | .null => .ok none
  | .str s => .ok (some s)
  | _ => .error "string_type"

/-- Pydantic `Optional[dict]` field validation. -/
def jOptObj : Json → Except String (Option (List (String × Json)))
  | .null => .ok none
  | .obj fs => .ok (some fs)
  | _ => .error "dict_type"

/-- Pydantic `list[Path]` / `list[str]` field validation. -/
def jStrList : Json → Except String (List String)
  | .arr xs => xs.mapM jStr
  | _ => .error "list_type"

/-- A required field: `missing` error when absent. -/
def jField (fs : List (String × Json)) (k : String) : Except String Json :=
  match dictGet? fs k with
  | some v => .ok v
  | none => .error ("missing " ++ k)

/-- A field with a default: the default document when absent. -/
def jFieldD (fs : List (String × Json)) (k : String) (d : Json) : Json :=
  (dictGet? fs k).getD d

/-- `extra="forbid"` on the shared `BaseModel`: unknown keys are rejected. -/
def forbidExtra (fs : List (String × Json)) (allowed : List String) : Except String Unit :=
  if fs.all (fun kv => allowed.contains kv.1) then .ok () else .error "extra_forbidden"

/-- `SIZE_PAT.match(v)`: the regex `[0-9]+(K|M|G|T)(B)?` matched at the start
of the string (an unanchored `match`, so trailing text is allowed and the
optional `B` never decides the outcome): one or more digits directly
followed by a unit letter. -/
def sizePatMatch (s : String) : Bool :=
  let cs := s.toList
  let ds := cs.takeWhile Char.isDigit
  decide (ds ≠ []) &&
    (match cs.drop ds.length with
     | c :: _ => ['K', 'M', 'G', 'T'].contains c
     | [] => false)

/-- `JobSettings.contains_units` field validator for `memory` and `disk`. -/
def containsUnits (v : String) : Except String String :=
  match v.toList with
  | '-' :: _ => .error "value can not be negative"
  | _ => if sizePatMatch v then .ok v else .error "value must be a valid size"

/-- The field set of the `JobArgs` pydantic model. -/
def JobArgsFields : List String := ["in_files", "out_files", "params"]

/-- The field set of the `RunnerPayload` pydantic model. -/
def RunnerPayloadFields : List String :=
  ["job", "job_dir", "out_dir", "log_dir", "params",
   "in_files", "out_files", "in_files_staging", "out_files_staging"]

/-- Validation of a `JobSettings` document (`model_validate_json`),
including the size-unit field validators. -/
def parseJobSettings (j : Json) : Except String JobSettings := do
  match j with
  | .obj fs => do
    let _ ← forbidExtra fs JobSettingsFields
    let name ← jStr (← jField fs "name")
    let memory ← containsUnits (← jStr (← jField fs "memory"))
    let disk ← containsUnits (← jStr (← jField fs "disk"))
    let cpus ← jInt (← jField fs "cpus")
    let entrypoint ← jStr (← jField fs "entrypoint")
    let docker_image ← jStr (← jField fs "docker_image")
    let classads ← jStr (jFieldD fs "classads" (.str ""))
    let in_staging ← jBool (jFieldD fs "in_staging" (.bool false))
    let out_staging ← jBool (jFieldD fs "out_staging" (.bool false))
    .ok { name := name, memory := memory, disk := disk, cpus := cpus,
          entrypoint := entrypoint, docker_image := docker_image,
          classads := classads, in_staging := in_staging,
          out_staging := out_staging }
  | _ => .error "model_type"

/-- Validation of a `JobArgs` document. -/
def parseJobArgs (j : Json) : Except String JobArgs := do
  match j with
  | .obj fs => do
    let _ ← forbidExtra fs JobArgsFields
    let in_files ← jOptStr (jFieldD fs "in_files" .null)
    let out_files ← jOptStr (jFieldD fs "out_files" .null)
    let params ← jOptObj (jFieldD fs "params" .null)
    .ok { in_files := in_files, out_files := out_files, params := params }
  | _ => .error "model_type"

/-- Validation of a `RunnerPayload` document
(`RunnerPayload.model_validate_json`). -/
def parseRunnerPayload (j : Json) : Except String RunnerPayload := do
  match j with
  | .obj fs => do
    let _ ← forbidExtra fs RunnerPayloadFields
    let job ← parseJobSettings (← jField fs "job")
    let job_dir ← jStr (← jField fs "job_dir")
    let out_dir ← jStr (← jField fs "out_dir")
    let log_dir ← jStr (← jField fs "log_dir")
    let params ← (do
      match ← jField fs "params" with
      | .arr xs => xs.mapM parseJobArgs
      | _ => .error "list_type")
    let in_files ← jStrList (jFieldD fs "in_files" (.arr []))
    let out_files ← jStrList (jFieldD fs "out_files" (.arr []))
    let in_files_staging ← jStrList (jFieldD fs "in_files_staging" (.arr []))
    let out_files_staging ← jStrList (jFieldD fs "out_files_staging" (.arr []))
    .ok { job := job, job_dir := job_dir, out_dir := out_dir,
          log_dir := log_dir, params := params, in_files := in_files,
          out_files := out_files, in_files_staging := in_files_staging,
          out_files_staging := out_files_staging }
  | _ => .error "model_type"

/-- `send` (client.py): serialize the payload to one JSON document, then
hand it to the external encoding layer (gzip compression of the rendered
text and the transport); `enc` stands for that layer. -/
def sendEncode {W : Type} (enc : Json → W) (p : RunnerPayload) : W :=
  enc (jsonOfRunnerPayload p)

/-- `parse_message` (job_exec/__main__.py): reverse the encoding layer
(`gzip.decompress` plus JSON text parsing; a failure there logs and returns
None), then `model_validate_json` (a `ValidationError` logs and returns
None). -/
def parseMessage {W : Type} (dec : W → Option Json) (raw : W) : Option RunnerPayload :=
  match dec raw with
  | none => none
  | some doc =>
    match parseRunnerPayload doc with
    | .ok payload => some payload
    | .error _ => none

/-- C10: for every payload (and any home directory), the current-revision
submission-descriptor compiler fails with `AttributeError` on the
`payload.job.additional_args` read — `JobSettings` declares no such field —
so it never returns a directive map or itemdata rows. -/
theorem c10_current_compiler_always_raises (home : String) (payload : RunnerPayload) :
    makeSubmissionCurrent home payload =
      .error "AttributeError: JobSettings object has no attribute additional_args" := rfl

/-- C8 counterexample: a three-argument `range` invocation with the
fractional step 1/2 does not fail — it returns the progression [0, 1/2]. -/
theorem c8_counterexample_fractional_step_ok :
    yamlRange [0, 1, (1 : ℚ)/2] = .ok [0, (1 : ℚ)/2] := by
  have h2 : (((1 : ℚ) - 0) / ((1 : ℚ)/2)) = 2 := by norm_num
  show npArange 0 1 ((1 : ℚ)/2) = .ok [0, (1 : ℚ)/2]
  rw [npArange, if_neg (by norm_num), h2]
  norm_num
  rw [show Int.toNat 2 = 2 from rfl, List.range_succ, List.range_succ, List.range_zero]
  norm_num

/-- C8 amended: a three-argument `range` invocation with any non-zero step,
fractional or not, returns the exclusive-stop progression
`start + i * step` of length `ceil((stop - start)/step)`; no integrality
check is applied to the step. -/
theorem c8_amended_fractional_step_accepted (start stop step : ℚ) (h : step ≠ 0) :
    yamlRange [start, stop, step] =
      .ok ((List.range (Int.toNat ⌈(stop - start) / step⌉)).map
        (fun i => start + (i : ℚ) * step)) := by
  simp [yamlRange, npArange, h]

/-- C8 witness: the amended theorem applied at `range(0, 1, 1/2)`. -/
theorem c8_witness :
    ((1 : ℚ)/2 ≠ 0) ∧
    yamlRange [0, 1, (1 : ℚ)/2] =
      .ok ((List.range (Int.toNat ⌈((1 : ℚ) - 0) / ((1 : ℚ)/2)⌉)).map
        (fun i => 0 + (i : ℚ) * ((1 : ℚ)/2))) :=
  ⟨by norm_num, c8_amended_fractional_step_accepted 0 1 ((1 : ℚ)/2) (by norm_num)⟩

/-- C4: an explicit output name with a directory component is accepted by
`JobParams` construction — the `out_files_relative` validator only asserts
on a bare `Path`, which the field value never is, so the name-only policy
stated in its own assertion message is never enforced. -/
theorem c4_subdir_output_accepted :
    hasDirComponent "sub/a.txt" = true ∧
    constructJobParams ⟨["x.txt"], .explicitFiles ["sub/a.txt"], none⟩ =
      .ok ⟨["x.txt"], .explicitFiles ["sub/a.txt"], none, 1⟩ := ⟨rfl, rfl⟩

/-- C1: with a single populated axis the derived `n_jobs` stays at its
default 0 instead of the axis length: one input with implicit outputs gives
`n_jobs = 0` (the claim requires 1), and params alone with sequences of
length 2 gives `n_jobs = 0` (the claim requires 2). -/
theorem c1_single_axis_n_jobs_stays_zero :
    constructJobParams ⟨["a.txt"], .implicitOut ⟨".bam"⟩, none⟩ =
      .ok ⟨["a.txt"], .implicitOut ⟨".bam"⟩, none, 0⟩ ∧
    constructJobParams ⟨[], .implicitOut ⟨".bam"⟩, some [("x", [.num 1, .num 2])]⟩ =
      .ok ⟨[], .implicitOut ⟨".bam"⟩, some [("x", [.num 1, .num 2])], 0⟩ := ⟨rfl, rfl⟩

/-- C3 counterexample: with inputs present and a present-but-empty params
mapping, every named sequence (vacuously) shares the inputs' length, yet
construction fails — the first-key probe of the params loop raises
`StopIteration`. -/
theorem c3_counterexample_empty_params_mapping :
    sharesOneLength ["a"] [] ∧
    constructJobParams ⟨["a"], .implicitOut ⟨".out"⟩, some []⟩ = .error .stopIteration :=
  ⟨by simp [sharesOneLength], rfl⟩

/-- C6 counterexample: a valid params-only job has an empty input axis, and
then both input manifest lists of the compiled payload are empty — "exactly
one non-empty per direction" fails. -/
theorem c6_counterexample_empty_axis :
    constructJobParams ⟨[], .explicitFiles ["o.txt"], some [("x", [.num 1])]⟩ =
      .ok ⟨[], .explicitFiles ["o.txt"], some [("x", [.num 1])], 1⟩ ∧
    (getRunnerPayload ⟨⟨"j", "1G", "1G", 1, "e", "img", "", false, false⟩,
        ⟨[], .explicitFiles ["o.txt"], some [("x", [.num 1])], 1⟩⟩
        "input" "output" "jd").in_files = [] ∧
    (getRunnerPayload ⟨⟨"j", "1G", "1G", 1, "e", "img", "", false, false⟩,
        ⟨[], .explicitFiles ["o.txt"], some [("x", [.num 1])], 1⟩⟩
        "input" "output" "jd").in_files_staging = [] :=
  ⟨rfl, rfl, rfl⟩

/-- C2 counterexample: a valid job with inputs, an explicit empty output
list, input staging on and output staging off compiles to a submission whose
directive map omits the output-transfer directives (they are gated on the
output manifest, which is empty here), contradicting the claim's
unconditional "includes". -/
theorem c2_counterexample_no_outputs :
    constructJobParams ⟨["a.txt"], .explicitFiles [], none⟩ =
      .ok ⟨["a.txt"], .explicitFiles [], none, 0⟩ ∧
    ∃ sub rows,
      makeSubmissionServer (getRunnerPayload
        ⟨⟨"j", "1G", "1G", 1, "e", "img", "", true, false⟩,
         ⟨["a.txt"], .explicitFiles [], none, 0⟩⟩ "input" "output" "jd") = .ok (sub, rows) ∧
      dictGet? sub "transfer_output_files" = none ∧
      dictGet? sub "transfer_output_remaps" = none ∧
      dictGet? sub "transfer_input_files" = none := by
  exact ⟨rfl, _, _, rfl, rfl, rfl, rfl⟩

/-- Reduction of an `Except` bind on a success value. -/
theorem exceptBind_ok (x : α) (f : α → Except ε β) : (Except.ok x >>= f) = f x := rfl

/-- Reduction of an `Except` bind on an error. -/
theorem exceptBind_error (e : ε) (f : α → Except ε β) :
    ((Except.error e : Except ε α) >>= f) = .error e := rfl

/-- `pure` in the `Except` monad. -/
theorem exceptPure_def (x : α) : (pure x : Except ε α) = .ok x := rfl

/-- Shape of `validate_params` for inputs + params + implicit outputs: the
only length check that runs is inputs-versus-params. -/
theorem validateParams_ok_shape (inFiles : List String) (io : ImplicitOut)
    (ps : List (String × List Json)) (n : Nat)
    (h : checkParamsLens ps = .ok n) (hIn : inFiles ≠ []) :
    validateParams ⟨inFiles, .implicitOut io, some ps⟩ =
      (if inFiles.length = n then
        .ok ⟨inFiles, .implicitOut io, some ps, inFiles.length⟩
      else .error (.insParamsMismatch n inFiles.length)) := by
  have hlen : 0 < inFiles.length := List.length_pos.mpr hIn
  have hb : (hasInputsP ⟨inFiles, .implicitOut io, some ps⟩ &&
      hasParamsP ⟨inFiles, .implicitOut io, some ps⟩) = true := by
    simp [hasInputsP, hasParamsP, hlen]
  simp only [validateParams]
  rw [h]
  show Except.ok n >>= _ = _
  rw [exceptBind_ok]
  by_cases hn : inFiles.length = n
  · rw [if_pos hn]
    simp [hb, hasInputsP, hasParamsP, hasOutputsP, assertInsEqualParams, hlen, hn,
      exceptBind_ok, exceptBind_error, exceptPure_def]
    omega
  · rw [if_neg hn]
    simp [hb, hasInputsP, hasParamsP, hasOutputsP, assertInsEqualParams, hlen, hn,
      exceptBind_ok, exceptBind_error, exceptPure_def]

/-- `Nat.digitChar` never yields a dot. -/
theorem digitChar_ne_dot (n : Nat) : Nat.digitChar n ≠ '.' := by
  match n with
  | 0 => decide
  | 1 => decide
  | 2 => decide
  | 3 => decide
  | 4 => decide
  | 5 => decide
  | 6 => decide
  | 7 => decide
  | 8 => decide
  | 9 => decide
  | 10 => decide
  | 11 => decide
  | 12 => decide
  | 13 => decide
  | 14 => decide
  | 15 => decide
  | (m + 16) =>
    unfold Nat.digitChar
    repeat rw [if_neg (by omega)]
    decide

/-- The digit accumulator of `Nat.toDigits` never introduces a dot. -/
theorem toDigitsCore_ne_dot (fuel : Nat) : ∀ (n : Nat) (ds : List Char),
    (∀ c ∈ ds, c ≠ '.') → ∀ c ∈ Nat.toDigitsCore 10 fuel n ds, c ≠ '.' := by
  induction fuel with
  | zero =>
    intro n ds h c hc
    simpa [Nat.toDigitsCore] using h c hc
  | succ fuel ih =>
    intro n ds h c hc
    rw [Nat.toDigitsCore] at hc
    by_cases hz : n / 10 = 0
    · rw [if_pos hz] at hc
      rcases List.mem_cons.mp hc with h1 | h2
      · exact h1 ▸ digitChar_ne_dot _
      · exact h c h2
    · rw [if_neg hz] at hc
      refine ih (n / 10) (Nat.digitChar (n % 10) :: ds) ?_ c hc
      intro c2 hc2
      rcases List.mem_cons.mp hc2 with h1 | h2
      · exact h1 ▸ digitChar_ne_dot _
      · exact h c2 h2

/-- The decimal rendering of a natural number contains no dot. -/
theorem natRepr_no_dot (j : Nat) : ∀ c ∈ (Nat.repr j).toList, c ≠ '.' := by
  intro c hc
  have h : (Nat.repr j).toList = Nat.toDigits 10 j := rfl
  rw [h] at hc
  exact toDigitsCore_ne_dot (j + 1) j [] (by simp) c hc

/-- The prefix kept by `strip_suffixes` has no dot left in it. -/
theorem stripSuffixes_no_dot (s : String) : '.' ∉ (stripSuffixes s).toList := by
  show '.' ∉ s.toList.takeWhile (fun c => decide (c ≠ '.'))
  intro hmem
  have := List.mem_takeWhile_imp hmem
  simp at this

/-- On a valid suffix and a non-empty dot-free stem, `Path.with_suffix`
plainly appends the suffix. -/
theorem pyWithSuffix_ok (name suffix : String) (hv : validSuffixArg suffix = true)
    (hn : name ≠ "") (hd : '.' ∉ name.toList) :
    pyWithSuffix name suffix = .ok (name ++ suffix) := by
  simp only [pyWithSuffix]
  rw [if_pos hv, if_neg hn, if_neg]
  intro hmem
  exact absurd (List.elem_iff.mp hmem) hd

/-- `strip_suffixes` is the identity on a dot-free name. -/
theorem stripSuffixes_eq_self (s : String) (h : ∀ c ∈ s.toList, c ≠ '.') :
    stripSuffixes s = s := by
  show (⟨s.toList.takeWhile (fun c => decide (c ≠ '.'))⟩ : String) = s
  rw [List.takeWhile_eq_self_iff.mpr (by intro c hc; simpa using h c hc)]
  rfl

/-- The fuel-indexed digit rendering only grows the accumulator. -/
theorem toDigitsCore_length (b fuel : Nat) : ∀ (n : Nat) (ds : List Char),
    ds.length ≤ (Nat.toDigitsCore b fuel n ds).length := by
  induction fuel with
  | zero =>
    intro n ds
    simp [Nat.toDigitsCore]
  | succ fuel ih =>
    intro n ds
    rw [Nat.toDigitsCore]
    by_cases hz : n / b = 0
    · rw [if_pos hz]
      simp
    · rw [if_neg hz]
      calc ds.length ≤ (Nat.digitChar (n % b) :: ds).length := by simp
        _ ≤ _ := ih _ _

/-- The digit rendering of a number is never empty. -/
theorem toDigits_ne_nil (j : Nat) : Nat.toDigits 10 j ≠ [] := by
  show Nat.toDigitsCore 10 (j + 1) j [] ≠ []
  rw [Nat.toDigitsCore]
  by_cases hz : j / 10 = 0
  · rw [if_pos hz]
    simp
  · rw [if_neg hz]
    intro h
    have h2 := toDigitsCore_length 10 j (j / 10) [Nat.digitChar (j % 10)]
    rw [h] at h2
    simp at h2

/-- `Nat.repr` is never the empty string. -/
theorem natRepr_ne_empty (j : Nat) : Nat.repr j ≠ "" := by
  intro h
  have h3 : (Nat.repr j).toList = Nat.toDigits 10 j := rfl
  rw [h] at h3
  exact toDigits_ne_nil j h3.symm

/-- On a valid suffix and a non-empty stripped stem, `get_implicit_out`
returns the stem with the suffix appended. -/
theorem getImplicitOut_strip (path suffix : String) (hv : validSuffixArg suffix = true)
    (hne : stripSuffixes path ≠ "") :
    getImplicitOut path suffix = .ok (stripSuffixes path ++ suffix) :=
  pyWithSuffix_ok _ _ hv hne (stripSuffixes_no_dot path)

/-- With no inputs, the implicit output for task `j` is the decimal `j` plus
the suffix: the decimal stem is never empty and never holds a dot. -/
theorem getImplicitOut_repr (j : Nat) (suffix : String)
    (hv : validSuffixArg suffix = true) :
    getImplicitOut (Nat.repr j) suffix = .ok (Nat.repr j ++ suffix) := by
  show pyWithSuffix (stripSuffixes (Nat.repr j)) suffix = _
  rw [stripSuffixes_eq_self _ (natRepr_no_dot j)]
  exact pyWithSuffix_ok _ _ hv (natRepr_ne_empty j)
    (fun hc => natRepr_no_dot j '.' hc rfl)

/-- The totalised resolver agrees with the fallible one on success. -/
theorem getImplicitOutTotal_ok (path suffix s : String)
    (h : getImplicitOut path suffix = .ok s) :
    getImplicitOutTotal path suffix = s := by
  simp [getImplicitOutTotal, h]

/-- C6 (amended): per direction, the staging flag alone selects which
manifest list may be populated — the other list is always empty — and the
selected list is non-empty exactly when the corresponding axis has at least
one file.  (With an empty axis both lists are empty, refining the claim's
"exactly one non-empty".) -/
theorem c6_amended_manifest_routing (cj : ClusterJob) (input_dir output_dir job_dir : String) :
    (cj.job.in_staging = true →
        (getRunnerPayload cj input_dir output_dir job_dir).in_files = [] ∧
        ((getRunnerPayload cj input_dir output_dir job_dir).in_files_staging = [] ↔
          cj.params.in_files = []))
    ∧ (cj.job.in_staging = false →
        (getRunnerPayload cj input_dir output_dir job_dir).in_files_staging = [] ∧
        ((getRunnerPayload cj input_dir output_dir job_dir).in_files = [] ↔
          cj.params.in_files = []))
    ∧ (cj.job.out_staging = true →
        (getRunnerPayload cj input_dir output_dir job_dir).out_files = [] ∧
        ((getRunnerPayload cj input_dir output_dir job_dir).out_files_staging = [] ↔
          resolveOutNames cj.params = []))
    ∧ (cj.job.out_staging = false →
        (getRunnerPayload cj input_dir output_dir job_dir).out_files_staging = [] ∧
        ((getRunnerPayload cj input_dir output_dir job_dir).out_files = [] ↔
          resolveOutNames cj.params = [])) := by
  refine ⟨?_, ?_, ?_, ?_⟩ <;> intro h <;> simp [getRunnerPayload, h]

/-- C6 witness: a job with one input, one explicit output and input staging
on routes inputs to the staging list only; by the routing theorem. -/
theorem c6_witness :
    (getRunnerPayload ⟨⟨"j", "1G", "1G", 1, "e", "img", "", true, false⟩,
        ⟨["a.txt"], .explicitFiles ["b.txt"], none, 1⟩⟩ "i" "o" "d").in_files = [] ∧
    ((getRunnerPayload ⟨⟨"j", "1G", "1G", 1, "e", "img", "", true, false⟩,
        ⟨["a.txt"], .explicitFiles ["b.txt"], none, 1⟩⟩ "i" "o" "d").in_files_staging = [] ↔
      (["a.txt"] : List String) = []) :=
  (c6_amended_manifest_routing ⟨⟨"j", "1G", "1G", 1, "e", "img", "", true, false⟩,
    ⟨["a.txt"], .explicitFiles ["b.txt"], none, 1⟩⟩ "i" "o" "d").1 rfl

/-- Element-wise validation of a dumped list succeeds with the original
elements (stated for `List.mapM`'s accumulator loop). -/
theorem mapM_loop_roundtrip {α β : Type} {ε : Type} (f : β → Except ε α) (g : α → β)
    (h : ∀ a, f (g a) = .ok a) (l : List α) : ∀ acc : List α,
    List.mapM.loop f (l.map g) acc = .ok (acc.reverse ++ l) := by
  induction l with
  | nil =>
    intro acc
    simp [List.mapM.loop, exceptPure_def]
  | cons x xs ih =>
    intro acc
    simp [List.mapM.loop, h, ih, exceptBind_ok]

/-- A dumped string list validates back to itself. -/
theorem mapM_jStr_roundtrip (l : List String) : (l.map Json.str).mapM jStr = .ok l := by
  show List.mapM.loop jStr (l.map Json.str) [] = .ok l
  rw [mapM_loop_roundtrip jStr Json.str (fun a => rfl) l []]
  simp

/-- `list[Path]` validation inverts the dump. -/
theorem jStrList_roundtrip (l : List String) : jStrList (.arr (l.map .str)) = .ok l := by
  show (l.map Json.str).mapM jStr = .ok l
  exact mapM_jStr_roundtrip l

/-- `JobArgs` validation inverts the dump. -/
theorem parseJobArgs_roundtrip (a : JobArgs) : parseJobArgs (jsonOfJobArgs a) = .ok a := by
  rcases a with ⟨i, o, pr⟩
  cases i <;> cases o <;> cases pr <;> rfl

/-- A dumped `JobArgs` list validates back to itself. -/
theorem mapM_parseJobArgs_roundtrip (l : List JobArgs) :
    (l.map jsonOfJobArgs).mapM parseJobArgs = .ok l := by
  show List.mapM.loop parseJobArgs (l.map jsonOfJobArgs) [] = .ok l
  rw [mapM_loop_roundtrip parseJobArgs jsonOfJobArgs parseJobArgs_roundtrip l []]
  simp

/-- `JobSettings` validation inverts the dump, provided the memory and disk
strings satisfy the size-unit validator (which any constructed `JobSettings`
does). -/
theorem parseJobSettings_roundtrip (s : JobSettings)
    (hm : containsUnits s.memory = .ok s.memory)
    (hd : containsUnits s.disk = .ok s.disk) :
    parseJobSettings (jsonOfJobSettings s) = .ok s := by
  have h1 : parseJobSettings (jsonOfJobSettings s) = (do
      let memory ← containsUnits s.memory
      let disk ← containsUnits s.disk
      let cpus ← jInt (.num (s.cpus : ℚ))
      Except.ok { name := s.name, memory := memory, disk := disk, cpus := cpus,
                  entrypoint := s.entrypoint, docker_image := s.docker_image,
                  classads := s.classads, in_staging := s.in_staging,
                  out_staging := s.out_staging }) := rfl
  rw [h1, hm, exceptBind_ok, hd, exceptBind_ok]
  have h2 : jInt (.num (s.cpus : ℚ)) = .ok s.cpus := by
    simp [jInt, Rat.den_intCast, Rat.num_intCast]
  rw [h2, exceptBind_ok]

/-- `RunnerPayload` validation inverts the dump, given valid size fields. -/
theorem parseRunnerPayload_roundtrip (p : RunnerPayload)
    (hm : containsUnits p.job.memory = .ok p.job.memory)
    (hd : containsUnits p.job.disk = .ok p.job.disk) :
    parseRunnerPayload (jsonOfRunnerPayload p) = .ok p := by
  have h1 : parseRunnerPayload (jsonOfRunnerPayload p) = (do
      let job ← parseJobSettings (jsonOfJobSettings p.job)
      let params ← (p.params.map jsonOfJobArgs).mapM parseJobArgs
      let in_files ← (p.in_files.map Json.str).mapM jStr
      let out_files ← (p.out_files.map Json.str).mapM jStr
      let in_files_staging ← (p.in_files_staging.map Json.str).mapM jStr
      let out_files_staging ← (p.out_files_staging.map Json.str).mapM jStr
      Except.ok { job := job, job_dir := p.job_dir, out_dir := p.out_dir,
                  log_dir := p.log_dir, params := params, in_files := in_files,
                  out_files := out_files, in_files_staging := in_files_staging,
                  out_files_staging := out_files_staging }) := rfl
  rw [h1, parseJobSettings_roundtrip p.job hm hd, exceptBind_ok,
    mapM_parseJobArgs_roundtrip, exceptBind_ok,
    mapM_jStr_roundtrip, exceptBind_ok, mapM_jStr_roundtrip, exceptBind_ok,
    mapM_jStr_roundtrip, exceptBind_ok, mapM_jStr_roundtrip, exceptBind_ok]

/-- C9: serializing a `SubmissionPlan` (`RunnerPayload`) to its single JSON
document, passing it through any faithfully invertible encoding layer (gzip
compression plus transport), and validating on the receiving side returns a
payload identical field-for-field — in particular the `TaskArgs` list and
the four transfer manifests. -/
theorem c9_wire_roundtrip {W : Type} (enc : Json → W) (dec : W → Option Json)
    (hdec : ∀ d, dec (enc d) = some d) (p : RunnerPayload)
    (hm : containsUnits p.job.memory = .ok p.job.memory)
    (hd : containsUnits p.job.disk = .ok p.job.disk) :
    parseMessage dec (sendEncode enc p) = some p := by
  unfold parseMessage sendEncode
  rw [hdec]
  show (match parseRunnerPayload (jsonOfRunnerPayload p) with
    | Except.ok payload => some payload
    | Except.error _ => none) = some p
  rw [parseRunnerPayload_roundtrip p hm hd]

/-- C9 witness: the identity encoding layer and a concrete one-task payload
round-trip exactly, by the wire theorem. -/
theorem c9_witness :
    parseMessage (fun d => some d) (sendEncode (fun d => d)
      ⟨⟨"j", "1G", "2G", 1, "e", "img", "", false, false⟩, "jd", "od", "log",
       [⟨some "a", some "b", some [("x", .num 1)]⟩], ["a"], ["b"], [], []⟩) =
      some ⟨⟨"j", "1G", "2G", 1, "e", "img", "", false, false⟩, "jd", "od", "log",
       [⟨some "a", some "b", some [("x", .num 1)]⟩], ["a"], ["b"], [], []⟩ :=
  c9_wire_roundtrip (fun d => d) (fun d => some d) (fun d => rfl) _ rfl rfl

/-- Inversion of a successful `Except` bind. -/
theorem exceptBind_ok_inv {ε α β : Type} {x : Except ε α} {f : α → Except ε β} {b : β}
    (h : (x >>= f) = .ok b) : ∃ a, x = .ok a ∧ f a = .ok b := by
  cases x with
  | error e => rw [exceptBind_error] at h; cases h
  | ok a => exact ⟨a, rfl, by rw [exceptBind_ok] at h; exact h⟩

/-- The field validator is the identity on every actual field value. -/
theorem outFilesRelative_id (v : OutFilesVal) : outFilesRelative v = v := by
  cases v <;> rfl

/-- A successfully validated `JobParams` with a non-empty explicit output
list has exactly `n_jobs` output names: whichever pairwise checks ran, each
assigned `n_jobs` a value equal to the explicit output count. -/
theorem validated_explicit_out_len (pIn : JobParamsIn) (jp : JobParams)
    (h : constructJobParams pIn = .ok jp) (fs : List String)
    (hfs : jp.out_files = .explicitFiles fs) (hne : fs ≠ []) :
    fs.length = jp.n_jobs := by
  rcases pIn with ⟨inF, outF, prm⟩
  have h2 : validateParams ⟨inF, outF, prm⟩ = .ok jp := by
    simpa [constructJobParams, outFilesRelative_id] using h
  clear h
  simp only [validateParams] at h2
  split at h2
  all_goals obtain ⟨nPL, hpl, h2⟩ := exceptBind_ok_inv h2
  all_goals split at h2
  all_goals obtain ⟨m1, hs1, h2⟩ := exceptBind_ok_inv h2
  all_goals split at h2
  all_goals obtain ⟨m2, hs2, h2⟩ := exceptBind_ok_inv h2
  all_goals split at h2
  all_goals obtain ⟨m3, hs3, h2⟩ := exceptBind_ok_inv h2
  all_goals split at h2
  all_goals try cases h2
  all_goals replace hfs : outF = OutFilesVal.explicitFiles fs := hfs
  all_goals subst hfs
  all_goals simp only [assertInsEqualParams, assertInsEqualOuts, assertOutsEqualParams,
    exceptPure_def] at hs1 hs2 hs3
  all_goals try split at hs1
  all_goals try split at hs2
  all_goals try split at hs3
  all_goals try cases hs1
  all_goals try cases hs2
  all_goals try cases hs3
  all_goals have hpos : 0 < fs.length := List.length_pos.mpr hne
  all_goals simp_all [hasInputsP, hasParamsP, hasOutputsP, outFilesLen]

/-- If every element maps successfully, the `mapM` accumulator loop
succeeds, preserves length, and every output comes from some input. -/
theorem mapM_loop_ok_of_forall {α β : Type} (f : α → Except String β) (l : List α) :
    ∀ acc : List β, (∀ a ∈ l, ∃ b, f a = .ok b) →
    ∃ l2, List.mapM.loop f l acc = .ok (acc.reverse ++ l2) ∧ l2.length = l.length ∧
      ∀ b ∈ l2, ∃ a ∈ l, f a = .ok b := by
  induction l with
  | nil =>
    intro acc _
    refine ⟨[], by simp [List.mapM.loop, exceptPure_def], by simp, by simp⟩
  | cons x xs ih =>
    intro acc h
    obtain ⟨b, hb⟩ := h x (by simp)
    obtain ⟨l2, hl2, hlen, hmem⟩ := ih (b :: acc) (fun a ha => h a (by simp [ha]))
    refine ⟨b :: l2, ?_, by simp [hlen], ?_⟩
    · show (f x >>= fun b => List.mapM.loop f xs (b :: acc)) = _
      rw [hb, exceptBind_ok, hl2]
      simp
    · intro c hc
      rcases List.mem_cons.mp hc with rfl | hc2
      · exact ⟨x, by simp, hb⟩
      · obtain ⟨a, ha, hfa⟩ := hmem c hc2
        exact ⟨a, by simp [ha], hfa⟩

/-- If every element maps successfully, so does `mapM`, preserving length,
and every output comes from some input. -/
theorem mapM_ok_of_forall {α β : Type} (f : α → Except String β) (l : List α)
    (h : ∀ a ∈ l, ∃ b, f a = .ok b) :
    ∃ l2, l.mapM f = .ok l2 ∧ l2.length = l.length ∧
      ∀ b ∈ l2, ∃ a ∈ l, f a = .ok b := by
  obtain ⟨l2, hl2, hlen, hmem⟩ := mapM_loop_ok_of_forall f l [] h
  exact ⟨l2, by simpa using hl2, hlen, hmem⟩

/-- When the value column is long enough, adding it succeeds, keeps the row
count, and every resulting row is an original row with the new key set. -/
theorem addColumn_ok (rows : List (List (String × String))) (key : String)
    (vals : List String) (hlen : rows.length ≤ vals.length) :
    ∃ rows2, addColumn rows key vals = .ok rows2 ∧ rows2.length = rows.length ∧
      ∀ r2 ∈ rows2, ∃ r v, r ∈ rows ∧ r2 = dictInsert r key v := by
  obtain ⟨l2, hl2, hlen2, hmem⟩ := mapM_ok_of_forall
    (fun j => match rows.get? j, vals.get? j with
      | some r, some v => Except.ok (dictInsert r key v)
      | _, _ => Except.error "IndexError")
    (List.range rows.length)
    (by
      intro j hj
      have hj2 : j < rows.length := List.mem_range.mp hj
      have hr : rows.get? j = some (rows.get ⟨j, hj2⟩) := List.get?_eq_get hj2
      have hv : vals.get? j = some (vals.get ⟨j, Nat.lt_of_lt_of_le hj2 hlen⟩) :=
        List.get?_eq_get (Nat.lt_of_lt_of_le hj2 hlen)
      exact ⟨dictInsert (rows.get ⟨j, hj2⟩) key (vals.get ⟨j, Nat.lt_of_lt_of_le hj2 hlen⟩),
        by simp only [hr, hv]⟩)
  refine ⟨l2, hl2, by simpa using hlen2, ?_⟩
  intro r2 hr2
  obtain ⟨j, hjmem, hfj⟩ := hmem r2 hr2
  rcases hr : rows.get? j with _ | r
  · rw [hr] at hfj
    cases hfj
  · rcases hv : vals.get? j with _ | v
    · rw [hr, hv] at hfj
      cases hfj
    · rw [hr, hv] at hfj
      injection hfj with hfj
      exact ⟨r, v, List.get?_mem hr, hfj.symm⟩

/-- For a validated `JobParams`, the resolved output-name list (explicit or
implicit) has exactly `n_jobs` entries whenever it is non-empty. -/
theorem resolveOutNames_len (pIn : JobParamsIn) (jp : JobParams)
    (h : constructJobParams pIn = .ok jp) (hne : resolveOutNames jp ≠ []) :
    (resolveOutNames jp).length = jp.n_jobs := by
  rcases ho : jp.out_files with fs | io
  · have hr : resolveOutNames jp = fs := by simp [resolveOutNames, ho]
    rw [hr] at hne ⊢
    exact validated_explicit_out_len pIn jp h fs ho hne
  · simp [resolveOutNames, ho, getImplicitOutFiles]

/-- Lookups on a compiled itemdata row: the two output-transfer variables
are present and no input-transfer variable is. -/
theorem row_lookups (s v1 v2 : String) :
    (dictGet? (dictInsert (dictInsert [("job_json", s)] "job_out_file" v1)
      "out_file" v2) "job_out_file").isSome = true ∧
    (dictGet? (dictInsert (dictInsert [("job_json", s)] "job_out_file" v1)
      "out_file" v2) "out_file").isSome = true ∧
    dictGet? (dictInsert (dictInsert [("job_json", s)] "job_out_file" v1)
      "out_file" v2) "in_file" = none :=
  ⟨rfl, rfl, rfl⟩

/-- Replacing the entries at key `k` does not change a lookup at a
different key. -/
theorem find?_map_keyfix {α : Type} (d : List (String × α)) (k k2 : String) (v : α)
    (h : ¬ k = k2) :
    (d.map (fun e => if e.1 = k then (k, v) else e)).find? (fun e => e.1 = k2) =
      d.find? (fun e => e.1 = k2) := by
  induction d with
  | nil => rfl
  | cons e rest ih =>
    by_cases he : e.1 = k
    · rw [List.map_cons, if_pos he,
        List.find?_cons_of_neg _ (by simp [h]),
        List.find?_cons_of_neg _ (by simp [he, h])]
      exact ih
    · rw [List.map_cons, if_neg he]
      by_cases hp : e.1 = k2
      · rw [List.find?_cons_of_pos _ (by simp [hp]), List.find?_cons_of_pos _ (by simp [hp])]
      · rw [List.find?_cons_of_neg _ (by simp [hp]), List.find?_cons_of_neg _ (by simp [hp])]
        exact ih

/-- Replacing the entries at key `k` makes a lookup at `k` find the new
pair, provided the key occurs. -/
theorem find?_map_keyfix_self {α : Type} (d : List (String × α)) (k : String) (v : α)
    (hany : d.any (fun e => e.1 = k) = true) :
    (d.map (fun e => if e.1 = k then (k, v) else e)).find? (fun e => e.1 = k) =
      some (k, v) := by
  induction d with
  | nil => simp at hany
  | cons e rest ih =>
    by_cases he : e.1 = k
    · rw [List.map_cons, if_pos he, List.find?_cons_of_pos _ (by simp)]
    · rw [List.map_cons, if_neg he, List.find?_cons_of_neg _ (by simp [he])]
      refine ih ?_
      simp only [List.any_cons, Bool.or_eq_true] at hany
      rcases hany with h1 | h2
      · exact absurd (by simpa using h1) he
      · exact h2

/-- Python dict lookup after an update at a different key is unchanged. -/
theorem dictGet?_dictInsert_ne {α : Type} (d : List (String × α)) (k k2 : String) (v : α)
    (h : ¬ k = k2) : dictGet? (dictInsert d k v) k2 = dictGet? d k2 := by
  unfold dictInsert
  split
  · simp only [dictGet?]
    rw [find?_map_keyfix d k k2 v h]
  · simp only [dictGet?, List.find?_append]
    have hs : List.find? (fun e => e.1 = k2) [(k, v)] = none := by simp [h]
    rw [hs]
    simp

/-- Python dict lookup after an update at the same key yields the new
value. -/
theorem dictGet?_dictInsert_self {α : Type} (d : List (String × α)) (k : String) (v : α) :
    dictGet? (dictInsert d k v) k = some v := by
  unfold dictInsert
  split
  · rename_i hany
    simp only [dictGet?]
    rw [find?_map_keyfix_self d k v hany]
    rfl
  · rename_i hany
    simp only [dictGet?, List.find?_append]
    have hnone : List.find? (fun e => e.1 = k) d = none := by
      rw [List.find?_eq_none]
      intro x hx
      simp only [decide_eq_true_eq]
      intro hxk
      exact hany (List.any_eq_true.mpr ⟨x, hx, by simp [hxk]⟩)
    rw [hnone]
    simp

set_option maxHeartbeats 2000000 in
/-- C2 (amended): every submission compiled (by the server-side descriptor
compiler) from a validated job with input staging on, output staging off,
and a non-empty resolved output-name list omits `transfer_input_files`,
includes `transfer_output_files` and `transfer_output_remaps`, and each
itemdata row carries `job_out_file` and `out_file` but no `in_file`.  (The
amendment conditions the output-transfer part on the output manifest being
non-empty, per the gating invariant.) -/
theorem c2_amended_staging_directives (pIn : JobParamsIn) (jp : JobParams) (settings : JobSettings)
    (input_dir output_dir job_dir : String)
    (hok : constructJobParams pIn = .ok jp)
    (hin : settings.in_staging = true) (hout : settings.out_staging = false)
    (hnames : resolveOutNames jp ≠ []) :
    ∃ sub rows,
      makeSubmissionServer (getRunnerPayload ⟨settings, jp⟩ input_dir output_dir job_dir) =
        .ok (sub, rows) ∧
      dictGet? sub "transfer_input_files" = none ∧
      (dictGet? sub "transfer_output_files").isSome = true ∧
      (dictGet? sub "transfer_output_remaps").isSome = true ∧
      ∀ row ∈ rows, (dictGet? row "job_out_file").isSome = true ∧
        (dictGet? row "out_file").isSome = true ∧ dictGet? row "in_file" = none := by
  set rp := getRunnerPayload ⟨settings, jp⟩ input_dir output_dir job_dir with hrp
  have hrpIn : rp.in_files = [] := by
    simp [hrp, getRunnerPayload, hin]
  have hrpOut : rp.out_files =
      (resolveOutNames jp).map (fun f => joinPath output_dir (pathName f)) := by
    simp [hrp, getRunnerPayload, hout]
  have hrpParams : rp.params =
      (List.range jp.n_jobs).map (fun j =>
        { in_files := if jp.in_files.length > 0 then some (pathName (jp.in_files.getD j "")) else none
          out_files := some ((resolveOutNames jp).getD j "")
          params := jp.params.map (fun ps => ps.map (fun kv => (kv.1, kv.2.getD j .null))) }) := by
    simp [hrp, getRunnerPayload]
  have hOutLen : rp.out_files.length = jp.n_jobs := by
    rw [hrpOut, List.length_map]
    exact resolveOutNames_len pIn jp hok hnames
  have hOutPos : rp.out_files.length > 0 := by
    rw [hrpOut, List.length_map]
    exact List.length_pos.mpr hnames
  have hParamsLen : rp.params.length = jp.n_jobs := by
    rw [hrpParams, List.length_map, List.length_range]
  obtain ⟨rows2, hrows2, hlen2, hmem2⟩ := addColumn_ok
    (rp.params.map (fun p => [("job_json", renderJson (jsonOfJobArgs p))]))
    "job_out_file" (rp.params.map (fun p => optStr p.out_files))
    (by simp)
  obtain ⟨rows3, hrows3, hlen3, hmem3⟩ := addColumn_ok rows2 "out_file" rp.out_files
    (by rw [hlen2, List.length_map, hParamsLen, hOutLen])
  refine ⟨dictInsert (dictInsert (dictInsert (dictInsert
      (dictInsert (dictInsert (dictInsert (dictInsert (dictInsert (dictInsert
        BASE_SUBMISSION "requirements" (.s settings.classads))
        "JobBatchName" (.s settings.name))
        "request_memory" (.s settings.memory))
        "request_cpus" (.i settings.cpus))
        "request_disk" (.s settings.disk))
        "arguments" (.s (settings.entrypoint ++ " \x27$(job_json)\x27")))
      "should_transfer_files" (.s "YES"))
      "transfer_output_files" (.s "ON_EXIT"))
      "transfer_output_files" (.s "$(job_out_file)"))
      "transfer_output_remaps" (.s "$(job_out_file) = $(out_file)"),
    rows3, ?_, ?_, ?_, ?_, ?_⟩
  · simp only [makeSubmissionServer, hrpIn]
    rw [if_neg (by simp)]
    simp only [exceptPure_def, exceptBind_ok]
    rw [if_pos hOutPos, hrows2, exceptBind_ok, hrows3, exceptBind_ok]
    rfl
  · repeat rw [dictGet?_dictInsert_ne _ _ _ _ (by decide)]
    rfl
  · rw [dictGet?_dictInsert_ne _ _ _ _ (by decide), dictGet?_dictInsert_self]
    rfl
  · rw [dictGet?_dictInsert_self]
    rfl
  · intro row hrow
    obtain ⟨r2, v2, hr2mem, hr2⟩ := hmem3 row hrow
    obtain ⟨r, v1, hrmem, hr⟩ := hmem2 r2 hr2mem
    obtain ⟨p, hpmem, hp⟩ := List.mem_map.mp hrmem
    subst hr2
    subst hr
    subst hp
    exact row_lookups _ _ _

/-- C2 witness: the amended theorem applied to a one-task job (one input,
one explicit output, input staging on, output staging off). -/
theorem c2_witness :
    ∃ sub rows,
      makeSubmissionServer (getRunnerPayload
        ⟨⟨"j", "1G", "1G", 1, "e", "img", "", true, false⟩,
         ⟨["a.txt"], .explicitFiles ["b.txt"], none, 1⟩⟩ "input" "output" "jd") =
        .ok (sub, rows) ∧
      dictGet? sub "transfer_input_files" = none ∧
      (dictGet? sub "transfer_output_files").isSome = true ∧
      (dictGet? sub "transfer_output_remaps").isSome = true ∧
      ∀ row ∈ rows, (dictGet? row "job_out_file").isSome = true ∧
        (dictGet? row "out_file").isSome = true ∧ dictGet? row "in_file" = none :=
  c2_amended_staging_directives ⟨["a.txt"], .explicitFiles ["b.txt"], none⟩
    ⟨["a.txt"], .explicitFiles ["b.txt"], none, 1⟩
    ⟨"j", "1G", "1G", 1, "e", "img", "", true, false⟩ "input" "output" "jd"
    rfl rfl rfl (by decide)

/-- `JobParams.construct` is `validate_params` composed with the identity
validator `out_files_relative`. -/
theorem constructJobParams_eq_validate (p : JobParamsIn) :
    constructJobParams p = validateParams p := by
  rcases p with ⟨inF, outF, prm⟩
  simp [constructJobParams, outFilesRelative_id]

/-- Shape of `validate_params` for inputs + params and an arbitrary
`out_files` value: inputs-versus-params is checked first, then (for a
non-empty explicit output list) inputs-versus-outputs. -/
theorem validateParams_ok_shape_all (inFiles : List String) (outF : OutFilesVal)
    (ps : List (String × List Json)) (n : Nat)
    (h : checkParamsLens ps = .ok n) (hIn : inFiles ≠ []) :
    validateParams ⟨inFiles, outF, some ps⟩ =
      (if inFiles.length = n then
        (match outF with
         | .implicitOut io => .ok ⟨inFiles, .implicitOut io, some ps, inFiles.length⟩
         | .explicitFiles fs =>
           if fs.length = 0 then .ok ⟨inFiles, .explicitFiles fs, some ps, inFiles.length⟩
           else if inFiles.length = fs.length then
             .ok ⟨inFiles, .explicitFiles fs, some ps, fs.length⟩
           else .error (.insOutsMismatch inFiles.length fs.length))
      else .error (.insParamsMismatch n inFiles.length)) := by
  have hlen : 0 < inFiles.length := List.length_pos.mpr hIn
  cases outF with
  | implicitOut io =>
    rw [validateParams_ok_shape inFiles io ps n h hIn]
  | explicitFiles fs =>
    simp only [validateParams]
    rw [h]
    show Except.ok n >>= _ = _
    rw [exceptBind_ok]
    by_cases hn : inFiles.length = n
    · by_cases hfs0 : fs.length = 0
      · rw [if_pos hn]
        simp [hasInputsP, hasParamsP, hasOutputsP, outFilesLen, assertInsEqualParams,
          hlen, hn, hfs0, exceptBind_ok, exceptBind_error, exceptPure_def]
        omega
      · by_cases he : inFiles.length = fs.length
        · rw [if_pos hn, if_neg hfs0, if_pos he]
          simp [hasInputsP, hasParamsP, hasOutputsP, outFilesLen, assertInsEqualParams,
            assertInsEqualOuts, assertOutsEqualParams, hlen, hn, he, Nat.pos_of_ne_zero hfs0,
            exceptBind_ok, exceptBind_error, exceptPure_def]
          rw [if_pos (by omega : n = fs.length), if_pos (by omega : fs.length = n)]
          split <;> rfl
        · rw [if_pos hn, if_neg hfs0, if_neg he]
          simp [hasInputsP, hasParamsP, hasOutputsP, outFilesLen, assertInsEqualParams,
            assertInsEqualOuts, hlen, hn, he, Nat.pos_of_ne_zero hfs0,
            exceptBind_ok, exceptBind_error, exceptPure_def]
          rw [if_pos (by omega : 0 < n), if_neg (by omega : ¬ n = fs.length)]
          rfl
    · rw [if_neg hn]
      simp [hasInputsP, hasParamsP, hasOutputsP, outFilesLen, assertInsEqualParams,
        hlen, hn, exceptBind_ok, exceptBind_error, exceptPure_def]

/-- `validate_params` propagates a failure of the params-length loop,
whatever the `out_files` value. -/
theorem validateParams_paramsLen_err_all (inFiles : List String) (outF : OutFilesVal)
    (ps : List (String × List Json)) (e : VErr)
    (h : checkParamsLens ps = .error e) :
    validateParams ⟨inFiles, outF, some ps⟩ = .error e := by
  simp only [validateParams]
  rw [h]
  rfl

/-- `validateParams_ok_shape_all` specialised to an explicit output list. -/
theorem validateParams_shape_explicit (inFiles fs : List String)
    (ps : List (String × List Json)) (n : Nat)
    (h : checkParamsLens ps = .ok n) (hIn : inFiles ≠ []) :
    validateParams ⟨inFiles, .explicitFiles fs, some ps⟩ =
      (if inFiles.length = n then
        (if fs.length = 0 then .ok ⟨inFiles, .explicitFiles fs, some ps, inFiles.length⟩
         else if inFiles.length = fs.length then
           .ok ⟨inFiles, .explicitFiles fs, some ps, fs.length⟩
         else .error (.insOutsMismatch inFiles.length fs.length))
      else .error (.insParamsMismatch n inFiles.length)) := by
  rw [validateParams_ok_shape_all inFiles (.explicitFiles fs) ps n h hIn]

/-- C3 (amended): with `in_files` present and a params mapping holding at
least one named sequence, construction succeeds with `n_jobs` equal to the
inputs' length exactly when every named sequence and `in_files` share one
length and the `out_files` value is compatible with it (implicit suffix, or
an explicit list that is empty or of that same length); a params-length
divergence fails naming the first divergent key (with both lengths), an
inputs/params count mismatch fails reporting both counts, and a non-empty
explicit output list of a different length fails reporting both counts. -/
theorem c3_amended_both_axes_iff (inFiles : List String) (k0 : String) (v0 : List Json)
    (rest : List (String × List Json)) (outF : OutFilesVal) (hIn : inFiles ≠ []) :
    ((∃ jp, constructJobParams ⟨inFiles, outF, some ((k0, v0) :: rest)⟩ = .ok jp ∧
        jp.n_jobs = inFiles.length) ↔
      (sharesOneLength inFiles ((k0, v0) :: rest) ∧ outLenCompatible outF inFiles.length))
    ∧ (∀ kv, ((k0, v0) :: rest).find? (fun e => e.2.length ≠ v0.length) = some kv →
        constructJobParams ⟨inFiles, outF, some ((k0, v0) :: rest)⟩ =
          .error (.paramsLenMismatch k0 v0.length kv.1 kv.2.length))
    ∧ (((k0, v0) :: rest).find? (fun e => e.2.length ≠ v0.length) = none →
        inFiles.length ≠ v0.length →
        constructJobParams ⟨inFiles, outF, some ((k0, v0) :: rest)⟩ =
          .error (.insParamsMismatch v0.length inFiles.length))
    ∧ (((k0, v0) :: rest).find? (fun e => e.2.length ≠ v0.length) = none →
        inFiles.length = v0.length →
        ∀ fs, outF = .explicitFiles fs → fs ≠ [] → inFiles.length ≠ fs.length →
        constructJobParams ⟨inFiles, outF, some ((k0, v0) :: rest)⟩ =
          .error (.insOutsMismatch inFiles.length fs.length)) := by
  have hcv := constructJobParams_eq_validate ⟨inFiles, outF, some ((k0, v0) :: rest)⟩
  refine ⟨?_, ?_, ?_, ?_⟩
  · rcases hf : ((k0, v0) :: rest).find? (fun e => e.2.length ≠ v0.length) with _ | kv
    · have hck : checkParamsLens ((k0, v0) :: rest) = .ok v0.length := by
        simp only [checkParamsLens]
        rw [hf]
      have hall : ∀ kv ∈ (k0, v0) :: rest, kv.2.length = v0.length := by
        intro kv hkv
        have := List.find?_eq_none.mp hf kv hkv
        simpa using this
      by_cases hn : inFiles.length = v0.length
      · have hall2 : sharesOneLength inFiles ((k0, v0) :: rest) := by
          intro kv hkv
          rw [hall kv hkv]
          exact hn.symm
        cases outF with
        | implicitOut io =>
          constructor
          · intro _
            exact ⟨hall2, trivial⟩
          · intro _
            refine ⟨⟨inFiles, .implicitOut io, some ((k0, v0) :: rest), inFiles.length⟩, ?_, rfl⟩
            rw [hcv, validateParams_ok_shape inFiles io _ _ hck hIn, if_pos hn]
        | explicitFiles fs =>
          by_cases hfs0 : fs.length = 0
          · constructor
            · intro _
              exact ⟨hall2, Or.inl (List.length_eq_zero.mp hfs0)⟩
            · intro _
              refine ⟨⟨inFiles, .explicitFiles fs, some ((k0, v0) :: rest), inFiles.length⟩, ?_, rfl⟩
              rw [hcv, validateParams_shape_explicit inFiles fs _ _ hck hIn, if_pos hn,
                if_pos hfs0]
          · by_cases hfe : inFiles.length = fs.length
            · constructor
              · intro _
                exact ⟨hall2, Or.inr hfe.symm⟩
              · intro _
                refine ⟨⟨inFiles, .explicitFiles fs, some ((k0, v0) :: rest), fs.length⟩, ?_,
                  hfe.symm⟩
                rw [hcv, validateParams_shape_explicit inFiles fs _ _ hck hIn, if_pos hn,
                  if_neg hfs0, if_pos hfe]
            · constructor
              · rintro ⟨jp, hjp, _⟩
                rw [hcv, validateParams_shape_explicit inFiles fs _ _ hck hIn, if_pos hn,
                  if_neg hfs0, if_neg hfe] at hjp
                cases hjp
              · rintro ⟨_, hcompat⟩
                rcases hcompat with hnil | hlen2
                · exact absurd (by simp [hnil]) hfs0
                · exact absurd hlen2.symm hfe
      · constructor
        · rintro ⟨jp, hjp, _⟩
          exfalso
          cases outF with
          | implicitOut io =>
            rw [hcv, validateParams_ok_shape inFiles io _ _ hck hIn, if_neg hn] at hjp
            cases hjp
          | explicitFiles fs =>
            rw [hcv, validateParams_shape_explicit inFiles fs _ _ hck hIn, if_neg hn] at hjp
            cases hjp
        · rintro ⟨hs, _⟩
          exact absurd (hs (k0, v0) (List.mem_cons_self _ _)).symm hn
    · have hck : checkParamsLens ((k0, v0) :: rest) =
          .error (.paramsLenMismatch k0 v0.length kv.1 kv.2.length) := by
        simp only [checkParamsLens]
        rw [hf]
      have herr := validateParams_paramsLen_err_all inFiles outF ((k0, v0) :: rest) _ hck
      constructor
      · rintro ⟨jp, hjp, _⟩
        rw [hcv, herr] at hjp
        cases hjp
      · rintro ⟨hs, _⟩
        exfalso
        have hkvmem := List.mem_of_find?_eq_some hf
        have hkvpred := List.find?_some hf
        have h1 : kv.2.length = inFiles.length := hs kv hkvmem
        have h2 : v0.length = inFiles.length := hs (k0, v0) (List.mem_cons_self _ _)
        simp only [decide_eq_true_eq] at hkvpred
        omega
  · intro kv hf
    have hck : checkParamsLens ((k0, v0) :: rest) =
        .error (.paramsLenMismatch k0 v0.length kv.1 kv.2.length) := by
      simp only [checkParamsLens]
      rw [hf]
    rw [hcv]
    exact validateParams_paramsLen_err_all inFiles outF ((k0, v0) :: rest) _ hck
  · intro hf hne
    have hck : checkParamsLens ((k0, v0) :: rest) = .ok v0.length := by
      simp only [checkParamsLens]
      rw [hf]
    rw [hcv, validateParams_ok_shape_all inFiles outF _ _ hck hIn, if_neg hne]
  · intro hf heq fs hofs hfne hneq
    have hck : checkParamsLens ((k0, v0) :: rest) = .ok v0.length := by
      simp only [checkParamsLens]
      rw [hf]
    subst hofs
    rw [hcv, validateParams_shape_explicit inFiles fs _ _ hck hIn, if_pos heq,
      if_neg (fun hh => hfne (List.length_eq_zero.mp hh)), if_neg hneq]

/-- C3 witness: three inputs with `params = (x ↦ [1, 2, 3])` and an implicit
output suffix construct with `n_jobs = 3`, by the amended theorem. -/
theorem c3_witness :
    (["a", "b", "c"] : List String) ≠ [] ∧
    ∃ jp, constructJobParams ⟨["a", "b", "c"], .implicitOut ⟨".out"⟩,
        some [("x", [.num 1, .num 2, .num 3])]⟩ = .ok jp ∧
      jp.n_jobs = (["a", "b", "c"] : List String).length :=
  ⟨by decide,
   ((c3_amended_both_axes_iff ["a", "b", "c"] "x" [.num 1, .num 2, .num 3] []
      (.implicitOut ⟨".out"⟩) (by simp)).1).mpr
     ⟨by
        intro kv hkv
        simp only [List.mem_singleton] at hkv
        subst hkv
        rfl,
      trivial⟩⟩

/-- Pointwise-successful `mapM.loop` computes the plain map. -/
theorem mapM_loop_map_of_forall {α β : Type} (f : α → Except String β) (g : α → β)
    (l : List α) : ∀ acc : List β, (∀ a ∈ l, f a = .ok (g a)) →
    List.mapM.loop f l acc = .ok (acc.reverse ++ l.map g) := by
  induction l with
  | nil =>
    intro acc _
    simp [List.mapM.loop, exceptPure_def]
  | cons x xs ih =>
    intro acc h
    have hx := h x (by simp)
    show (f x >>= fun b => List.mapM.loop f xs (b :: acc)) = _
    rw [hx, exceptBind_ok, ih (g x :: acc) (fun a ha => h a (by simp [ha]))]
    simp

/-- Pointwise-successful `mapM` computes the plain map. -/
theorem mapM_map_of_forall {α β : Type} (f : α → Except String β) (g : α → β)
    (l : List α) (h : ∀ a ∈ l, f a = .ok (g a)) :
    l.mapM f = .ok (l.map g) := by
  have h2 := mapM_loop_map_of_forall f g l [] h
  simpa using h2

/-- C5 counterexample: an input name starting with a dot strips to an empty
stem, on which `Path.with_suffix` raises `ValueError` instead of returning a
name; a suffix given without its leading dot raises `ValueError` even on a
good stem. -/
theorem c5_counterexample_hidden_input :
    getImplicitOutFilesE ⟨[".hidden"], .implicitOut ⟨".bam"⟩, none, 1⟩ =
      .error " has an empty name"
    ∧ getImplicitOutFilesE ⟨["sample.fastq.gz"], .implicitOut ⟨"bam"⟩, none, 1⟩ =
      .error "Invalid suffix bam" := by
  constructor <;> rfl

/-- C5 (amended): with a suffix `with_suffix` accepts (a dot plus at least
one character) and, when inputs are present, a non-empty stripped stem for
every in-range task index, the resolver raises nothing and is the pure
function of the task index the claim describes: with inputs present, task
`j` gets input `j`'s file name with all extensions stripped and the suffix
appended; with no inputs it gets the decimal rendering of `j` as the stem
plus the suffix.  (With an empty stripped stem, or a suffix lacking its
leading dot, `with_suffix` raises `ValueError` instead.) -/
theorem c5_implicit_out_resolver (p : JobParams) (io : ImplicitOut)
    (hOut : p.out_files = .implicitOut io) (hv : validSuffixArg io.suffix = true)
    (hstem : 0 < p.in_files.length → ∀ j, j < p.n_jobs →
        stripSuffixes (pathName (p.in_files.getD j "")) ≠ "") :
    getImplicitOutFilesE p = .ok (getImplicitOutFiles p)
    ∧ (∀ j, j < p.n_jobs → ∀ hjl : j < p.in_files.length,
        (getImplicitOutFiles p).get? j =
          some (stripSuffixes (pathName (p.in_files.get ⟨j, hjl⟩)) ++ io.suffix))
    ∧ (p.in_files.length = 0 → ∀ j, j < p.n_jobs →
        (getImplicitOutFiles p).get? j = some (Nat.repr j ++ io.suffix)) := by
  have hok : ∀ j, j < p.n_jobs →
      (if p.in_files.length > 0 then
        getImplicitOut (pathName (p.in_files.getD j "")) (implicitSuffix p.out_files)
      else
        getImplicitOut (Nat.repr j) (implicitSuffix p.out_files)) =
      .ok (if p.in_files.length > 0 then
        getImplicitOutTotal (pathName (p.in_files.getD j "")) (implicitSuffix p.out_files)
      else
        getImplicitOutTotal (Nat.repr j) (implicitSuffix p.out_files)) := by
    intro j hj
    rw [hOut]
    simp only [implicitSuffix]
    by_cases hpos : p.in_files.length > 0
    · rw [if_pos hpos, if_pos hpos]
      have hs := getImplicitOut_strip (pathName (p.in_files.getD j "")) io.suffix hv
        (hstem hpos j hj)
      rw [hs, getImplicitOutTotal_ok _ _ _ hs]
    · rw [if_neg hpos, if_neg hpos]
      have hs := getImplicitOut_repr j io.suffix hv
      rw [hs, getImplicitOutTotal_ok _ _ _ hs]
  refine ⟨?_, ?_, ?_⟩
  · exact mapM_map_of_forall
      (fun j => if p.in_files.length > 0 then
        getImplicitOut (pathName (p.in_files.getD j "")) (implicitSuffix p.out_files)
      else getImplicitOut (Nat.repr j) (implicitSuffix p.out_files))
      (fun j => if p.in_files.length > 0 then
        getImplicitOutTotal (pathName (p.in_files.getD j "")) (implicitSuffix p.out_files)
      else getImplicitOutTotal (Nat.repr j) (implicitSuffix p.out_files))
      (List.range p.n_jobs)
      (fun j hjmem => hok j (List.mem_range.mp hjmem))
  · intro j hj hjl
    have hpos : 0 < p.in_files.length := Nat.lt_of_le_of_lt (Nat.zero_le j) hjl
    have hrange : (List.range p.n_jobs).get? j = some j := List.get?_range hj
    simp only [getImplicitOutFiles, List.get?_map, hrange, Option.map_some']
    rw [hOut]
    simp only [implicitSuffix, if_pos hpos]
    rw [List.getD_eq_get p.in_files "" hjl,
      getImplicitOutTotal_ok _ _ _ (getImplicitOut_strip _ io.suffix hv
        (by rw [← List.getD_eq_get p.in_files "" hjl]; exact hstem hpos j hj))]
  · intro hzero j hj
    have hrange : (List.range p.n_jobs).get? j = some j := List.get?_range hj
    simp only [getImplicitOutFiles, List.get?_map, hrange, Option.map_some']
    rw [hOut]
    simp only [implicitSuffix, hzero, if_neg (by omega : ¬ (0:Nat) > 0)]
    rw [getImplicitOutTotal_ok _ _ _ (getImplicitOut_repr j io.suffix hv)]

/-- C5 witness: input `sample.fastq.gz` with suffix `.bam` resolves without
an error to `sample.bam`, by the resolver theorem. -/
theorem c5_witness :
    getImplicitOutFilesE ⟨["sample.fastq.gz"], .implicitOut ⟨".bam"⟩, none, 1⟩ =
      .ok ["sample.bam"] := by
  have h := c5_implicit_out_resolver ⟨["sample.fastq.gz"], .implicitOut ⟨".bam"⟩, none, 1⟩
    ⟨".bam"⟩ rfl (by decide)
    (by
      intro _ j hj
      have hj1 : j < 1 := hj
      have hj0 : j = 0 := by omega
      subst hj0
      decide)
  rw [h.1]
  rfl
